import Mathlib

/-!
Verification development for the SmartScout session manager
(`csv-enhanced-cloud/smartscout_session_manager.py`).

The Python module orchestrates a per-brand processing pipeline
(collect -> download -> summarize) over a session state that is
persisted to a JSON document.  This file gives a shallow embedding of
the state machine and of the operations of class `SessionManager`:

* Python's `BrandStatus` enum becomes the inductive `BrandStatus`;
  because `load_session` reconstructs `BrandState(**data)` without
  converting the serialized string tag back to an enum member, an
  in-memory status is either an enum member or a plain string, embedded
  as `PyStatus`.  Python's `status == BrandStatus.X` (enum identity,
  never true for a string) is `pyStatusEq`.
* Python dicts keyed by strings become association lists
  (`List (String × _)`) with first-occurrence lookup and
  insertion-order-preserving assignment (`assocSet`), matching CPython
  dict semantics.
* The three step executors (`collect_brand_data`, `download_html_only`,
  `summarize_html`) are external collaborators; they are modelled as an
  abstract `Executors` record where an exception is an `Except.error`.
* Batch runners return, besides the new session state, the list of
  `Event`s they produce: one `Event.call` per executor invocation (the
  "executor spy" of the spec) and one `Event.sleep` per blocking wait.
  Timestamps are threaded as an opaque `now : String`.
-/

set_option autoImplicit false

namespace SmartScout

/-- Python enum `BrandStatus` (source lines 56-69). -/
inductive BrandStatus where
  | pending
  | collecting
  | no_brand_found
  | collected
  | analyzing
  | analyzed
  | downloading
  | downloaded
  | summarizing
  | summarized
  | failed
  | skipped
  deriving DecidableEq, Repr

/-- `BrandStatus.X.value` in Python: the string tag of the enum member. -/
def BrandStatus.value : BrandStatus → String
  | .pending => "pending"
  | .collecting => "collecting"
  | .no_brand_found => "no_brand_found"
  | .collected => "collected"
  | .analyzing => "analyzing"
  | .analyzed => "analyzed"
  | .downloading => "downloading"
  | .downloaded => "downloaded"
  | .summarizing => "summarizing"
  | .summarized => "summarized"
  | .failed => "failed"
  | .skipped => "skipped"

/-- A status field as it actually occurs at run time: an enum member for
states assigned in memory, or a plain string for states reconstructed by
`load_session` from the JSON document. -/
inductive PyStatus where
  | enum (s : BrandStatus)
  | str (s : String)
  deriving DecidableEq, Repr

/-- Python `status.value if hasattr(status, 'value') else status`
(e.g. source lines 379, 634, 697). -/
def statusValue : PyStatus → String
  | .enum s => s.value
  | .str s => s

/-- Python `status == BrandStatus.X`: enum identity comparison; a plain
string compares unequal to every enum member. -/
def pyStatusEq : PyStatus → BrandStatus → Bool
  | .enum s, t => decide (s = t)
  | .str _, _ => false

/-- Python `status in [BrandStatus.X, ...]` (source line 882). -/
def pyStatusMem (s : PyStatus) (l : List BrandStatus) : Bool :=
  l.any (fun t => pyStatusEq s t)

/-- Python dict assignment `d[k] = v` on a dict represented as an
association list: replace the first entry with key `k`, else append. -/
def assocSet {β : Type} : List (String × β) → String → β → List (String × β)
  | [], k, v => [(k, v)]
  | (k', v') :: rest, k, v =>
    if k' = k then (k, v) :: rest else (k', v') :: assocSet rest k v

/-- Python `d.get(k, default)` (first-occurrence lookup). -/
def assocGetD {β : Type} : List (String × β) → String → β → β
  | [], _, d => d
  | (k', v) :: rest, k, d => if k' = k then v else assocGetD rest k d

/-- Python `k in d`. -/
def assocContains {β : Type} (m : List (String × β)) (k : String) : Bool :=
  m.any (fun p => p.1 = k)

/-- Dataclass `BrandState` (source lines 80-105), restricted to the
fields the session-manager logic reads or writes.  The untyped
`results` dict and the two wall-clock timestamps are omitted: nothing
in the orchestration logic branches on them. -/
structure BrandState where
  name : String
  status : PyStatus
  attempts : List (String × Nat)
  last_attempt : List (String × String)
  errors : List String
  deriving DecidableEq, Repr

/-- `BrandState(name=brand_name)`: the `__post_init__` defaults of a
freshly created item (source lines 94-105). -/
def newBrand (n : String) : BrandState :=
  { name := n
    status := .enum .pending
    attempts := [("collect", 0), ("download", 0), ("summarize", 0)]
    last_attempt := []
    errors := [] }

/-- Dataclass `SessionConfig` (source lines 108-134).  All fields are
JSON-plain values. -/
structure SessionConfig where
  session_id : String
  session_name : String
  brands_file : Option String
  brands_list : Option (List String)
  html_folder : String
  summary_folder : String
  max_retries : Nat
  retry_delays : List (String × Nat)
  headless : Bool
  model_provider : String
  model_name : Option String
  force_regenerate : Bool
  created_at : String
  deriving DecidableEq, Repr

/-- In-memory session state (dataclass `SessionState`, source lines
137-152), restricted to the fields the orchestration logic uses.
`total_brands` is omitted: `__post_init__` re-derives it as
`len(self.brands)` on every construction, and the one explicit
assignment (line 200) also sets it to `len(brands)`, so it is the
derived quantity `brands.length`. -/
structure SessionSt where
  brands : List (String × BrandState)
  completed_brands : Nat
  failed_brands : Nat
  started_at : Option String
  completed_at : Option String
  deriving DecidableEq, Repr

/-! ### Persistence layer (`_save_session_state` / `load_session`) -/

/-- One brand entry of the JSON document `session_state.json`: the
`asdict` of a `BrandState` with the status rendered as a plain string
(source lines 346-364). -/
structure SavedBrand where
  name : String
  status : String
  attempts : List (String × Nat)
  last_attempt : List (String × String)
  errors : List String
  deriving DecidableEq, Repr

/-- The `asdict` of a `SessionConfig` (source line 345): every field is
already JSON-plain, so the document carries the same fields. -/
structure SavedConfig where
  session_id : String
  session_name : String
  brands_file : Option String
  brands_list : Option (List String)
  html_folder : String
  summary_folder : String
  max_retries : Nat
  retry_delays : List (String × Nat)
  headless : Bool
  model_provider : String
  model_name : Option String
  force_regenerate : Bool
  created_at : String
  deriving DecidableEq, Repr

/-- The JSON document written by `_save_session_state` (source lines
344-356). -/
structure SessionDoc where
  config : SavedConfig
  brands : List (String × SavedBrand)
  started_at : Option String
  completed_at : Option String
  total_brands : Nat
  completed_brands : Nat
  failed_brands : Nat
  deriving DecidableEq, Repr

/-- `asdict(config)` (source line 345). -/
def saveConfig (c : SessionConfig) : SavedConfig :=
  { session_id := c.session_id
    session_name := c.session_name
    brands_file := c.brands_file
    brands_list := c.brands_list
    html_folder := c.html_folder
    summary_folder := c.summary_folder
    max_retries := c.max_retries
    retry_delays := c.retry_delays
    headless := c.headless
    model_provider := c.model_provider
    model_name := c.model_name
    force_regenerate := c.force_regenerate
    created_at := c.created_at }

/-- `SessionConfig(**state_data['config'])` (source line 282): the
constructor receives every saved field; `__post_init__` keeps them all
since none is `None`-defaulted away. -/
def loadConfig (c : SavedConfig) : SessionConfig :=
  { session_id := c.session_id
    session_name := c.session_name
    brands_file := c.brands_file
    brands_list := c.brands_list
    html_folder := c.html_folder
    summary_folder := c.summary_folder
    max_retries := c.max_retries
    retry_delays := c.retry_delays
    headless := c.headless
    model_provider := c.model_provider
    model_name := c.model_name
    force_regenerate := c.force_regenerate
    created_at := c.created_at }

/-- `asdict(brand_state)` followed by the enum-to-string conversion loop
(source lines 358-364): an enum status is replaced by its `.value`, a
status that is already a string is kept as is. -/
def saveBrand (b : BrandState) : SavedBrand :=
  { name := b.name
    status := statusValue b.status
    attempts := b.attempts
    last_attempt := b.last_attempt
    errors := b.errors }

/-- `BrandState(**brand_data)` (source line 284): the saved status tag
is passed through unconverted and therefore remains a plain string. -/
def loadBrand (d : SavedBrand) : BrandState :=
  { name := d.name
    status := .str d.status
    attempts := d.attempts
    last_attempt := d.last_attempt
    errors := d.errors }

/-- `_save_session_state` (source lines 336-370): the document written
for a session with configuration `cfg` and state `st`. -/
def saveSessionDoc (cfg : SessionConfig) (st : SessionSt) : SessionDoc :=
  { config := saveConfig cfg
    brands := st.brands.map (fun p => (p.1, saveBrand p.2))
    started_at := st.started_at
    completed_at := st.completed_at
    total_brands := st.brands.length
    completed_brands := st.completed_brands
    failed_brands := st.failed_brands }

/-- `load_session` (source lines 277-297) applied to a well-formed
document: reconstruct the configuration and every brand, keep the
counters and timestamps (`total_brands` is re-derived by
`SessionState.__post_init__`). -/
def loadSessionDoc (d : SessionDoc) : SessionConfig × SessionSt :=
  (loadConfig d.config,
   { brands := d.brands.map (fun p => (p.1, loadBrand p.2))
     completed_brands := d.completed_brands
     failed_brands := d.failed_brands
     started_at := d.started_at
     completed_at := d.completed_at })

/-! ### Step executors and simple step wrappers -/

/-- The external collaborators (`smartscout_csv_downloader`), seen at
their interface boundary.  A raised Python exception is `Except.error`
with the exception text; `download` and `summarize` may also return a
falsy value (`none` models Python `None`, `some ""` an empty string). -/
structure Executors where
  collect : String → Except String String
  download : String → Except String (Option String)
  summarize : String → Except String (Option String)

/-- `_collect_step_simple` (source lines 921-933): calls
`collect_brand_data` and returns its result; exceptions propagate. -/
def collect_step_simple (ex : Executors) (n : String) : Except String String :=
  ex.collect n

/-- `_download_step_simple` (source lines 935-949): calls
`download_html_only` and returns `result if result else "failed"`;
exceptions propagate. -/
def download_step_simple (ex : Executors) (n : String) : Except String String :=
  match ex.download n with
  | .error e => .error e
  | .ok none => .ok "failed"
  | .ok (some r) => .ok (if r = "" then "failed" else r)

/-- `_summarize_step_simple` (source lines 951-970): calls
`summarize_html` inside a `try`; returns `"summarized"` iff the result
is truthy and longer than 100 characters, `"failed"` otherwise
(including on exception). -/
def summarize_step_simple (ex : Executors) (n : String) : String :=
  match ex.summarize n with
  | .error _ => "failed"
  | .ok none => "failed"
  | .ok (some s) => if s = "" then "failed" else if 100 < s.length then "summarized" else "failed"

/-! ### Batch runners

Each Python batch first builds the list of eligible items from the
current statuses, then walks it sequentially, mutating each selected
item's (shared, per-item) state and appending to the session counters.
Since eligibility is fixed up front and each iteration only touches its
own item (plus the session counters, which accumulate), the loop
denotes to: an order-preserving per-item update of the map on the
selected entries, the counter sums, and the in-order executor-call
events. -/

/-- An observable action of the session run: one executor invocation
(`call step brand`) or one blocking wait of `_wait_with_progress`
(`sleep seconds`). -/
inductive Event where
  | call (step : String) (brand : String)
  | sleep (seconds : Nat)
  deriving DecidableEq, Repr

/-- The body of the `_batch_collect_all` loop for one selected brand
(source lines 511-535): the transient `COLLECTING` assignment is
overwritten by the result mapping; an exception is caught and maps to
`FAILED` (nothing is appended to `errors`); `attempts["collect"]` and
`last_attempt["collect"]` are set in every case. -/
def collectUpdate (ex : Executors) (now : String) (n : String) (b : BrandState) : BrandState :=
  let newStatus : PyStatus :=
    match collect_step_simple ex n with
    | .error _ => .enum .failed
    | .ok r =>
      if r = "no_brand_found" then .enum .no_brand_found
      else if r = "collected" then .enum .collected
      else if r = "analyzing" then .enum .analyzing
      else if r = "analyzed" then .enum .analyzed
      else .enum .failed
  { b with status := newStatus
           attempts := assocSet b.attempts "collect" 1
           last_attempt := assocSet b.last_attempt "collect" now }

/-- `_batch_collect_all` (source lines 498-541): selects the items with
status `== BrandStatus.PENDING`, runs the collect executor on each.
Returns the new state and the executor-call events in order. -/
def batch_collect_all (ex : Executors) (now : String) (st : SessionSt) :
    SessionSt × List Event :=
  let selected := st.brands.filter (fun p => pyStatusEq p.2.status .pending)
  ({ st with brands :=
      st.brands.map (fun p =>
        if pyStatusEq p.2.status .pending then (p.1, collectUpdate ex now p.1 p.2) else p) },
   selected.map (fun p => Event.call "collect" p.1))

/-- The body of the `_batch_download_all` loop for one selected brand
(source lines 556-577): `"downloaded"` maps to `DOWNLOADED`,
`"incomplete"` and every other result to `FAILED`; an exception is
caught and maps to `FAILED` (`errors` untouched). -/
def downloadUpdate (ex : Executors) (now : String) (n : String) (b : BrandState) : BrandState :=
  let newStatus : PyStatus :=
    match download_step_simple ex n with
    | .error _ => .enum .failed
    | .ok r =>
      if r = "downloaded" then .enum .downloaded
      else if r = "incomplete" then .enum .failed
      else .enum .failed
  { b with status := newStatus
           attempts := assocSet b.attempts "download" 1
           last_attempt := assocSet b.last_attempt "download" now }

/-- `_batch_download_all` (source lines 543-583): selects the items
with status `== BrandStatus.ANALYZED` ("Only download when report is
actually ready") and runs the download executor on each. -/
def batch_download_all (ex : Executors) (now : String) (st : SessionSt) :
    SessionSt × List Event :=
  let selected := st.brands.filter (fun p => pyStatusEq p.2.status .analyzed)
  ({ st with brands :=
      st.brands.map (fun p =>
        if pyStatusEq p.2.status .analyzed then (p.1, downloadUpdate ex now p.1 p.2) else p) },
   selected.map (fun p => Event.call "download" p.1))

/-- The body of the `_batch_summarize_all` loop for one selected brand
(source lines 598-619), status and per-item fields only:
`"summarized"` maps to `SUMMARIZED`, anything else to `FAILED`
(`_summarize_step_simple` never raises, so the `except` branch of the
loop is unreachable). -/
def summarizeUpdate (ex : Executors) (now : String) (n : String) (b : BrandState) : BrandState :=
  { b with status :=
      if summarize_step_simple ex n = "summarized" then .enum .summarized else .enum .failed
           attempts := assocSet b.attempts "summarize" 1
           last_attempt := assocSet b.last_attempt "summarize" now }

/-- `_batch_summarize_all` (source lines 585-625): selects the items
with status `== BrandStatus.DOWNLOADED`; per selected item increments
`completed_brands` on `"summarized"` and `failed_brands` otherwise. -/
def batch_summarize_all (ex : Executors) (now : String) (st : SessionSt) :
    SessionSt × List Event :=
  let selected := st.brands.filter (fun p => pyStatusEq p.2.status .downloaded)
  let counts :=
    selected.foldl
      (fun (c : Nat × Nat) p =>
        if summarize_step_simple ex p.1 = "summarized" then (c.1 + 1, c.2) else (c.1, c.2 + 1))
      (st.completed_brands, st.failed_brands)
  ({ st with brands :=
      st.brands.map (fun p =>
        if pyStatusEq p.2.status .downloaded then (p.1, summarizeUpdate ex now p.1 p.2) else p)
             completed_brands := counts.1
             failed_brands := counts.2 },
   selected.map (fun p => Event.call "summarize" p.1))

/-! ### Resume handling and the phase scheduler -/

/-- The reset loop of `_handle_resume_brands` (source lines 647-654):
every item whose status tag (enum or string) is `failed` or
`no_brand_found` is set back to the enum `PENDING` and its error log is
cleared.  The loop touches nothing else and calls no executor. -/
def resetPhase (brands : List (String × BrandState)) : List (String × BrandState) :=
  brands.map (fun p =>
    if statusValue p.2.status = "failed" ∨ statusValue p.2.status = "no_brand_found" then
      (p.1, { p.2 with status := .enum .pending, errors := [] })
    else p)

/-- The re-check applied by `_handle_resume_brands` to one `analyzing`
or `collected` item (source lines 662-676): run the collect executor;
`analyzed`, `analyzing` and `collected` results update the status, any
other result and an exception leave the item unchanged. -/
def resumeRecheckItem (ex : Executors) (n : String) (b : BrandState) : BrandState :=
  match collect_step_simple ex n with
  | .error _ => b
  | .ok r =>
    if r = "analyzed" then { b with status := .enum .analyzed }
    else if r = "analyzing" then { b with status := .enum .analyzing }
    else if r = "collected" then { b with status := .enum .collected }
    else b

/-- The recheck loop of `_handle_resume_brands` (source lines 656-676):
runs `resumeRecheckItem` on every item whose status tag is `analyzing`
or `collected`, emitting one collect-executor call per such item. -/
def resumeRecheckPhase (ex : Executors) (brands : List (String × BrandState)) :
    List (String × BrandState) × List Event :=
  (brands.map (fun p =>
      if statusValue p.2.status = "analyzing" ∨ statusValue p.2.status = "collected" then
        (p.1, resumeRecheckItem ex p.1 p.2)
      else p),
   (brands.filter (fun p =>
      statusValue p.2.status = "analyzing" ∨ statusValue p.2.status = "collected")).map
     (fun p => Event.call "collect" p.1))

/-- `_handle_resume_brands` (source lines 627-679): the two selection
lists are computed from the same initial statuses and are disjoint
(`failed`/`no_brand_found` vs `analyzing`/`collected`), and the reset
loop runs to completion before the recheck loop starts, so the whole
routine is the recheck phase applied after the reset phase. -/
def handle_resume_brands (ex : Executors) (brands : List (String × BrandState)) :
    List (String × BrandState) × List Event :=
  resumeRecheckPhase ex (resetPhase brands)

/-- The body of the `_batch_recheck_all` loop (source lines 898-913):
unlike the resume recheck, only `analyzed` and `analyzing` results
update the status ("Keep other statuses as they were"). -/
def batchRecheckItem (ex : Executors) (n : String) (b : BrandState) : BrandState :=
  match collect_step_simple ex n with
  | .error _ => b
  | .ok r =>
    if r = "analyzed" then { b with status := .enum .analyzed }
    else if r = "analyzing" then { b with status := .enum .analyzing }
    else b

/-- `_batch_recheck_all` (source lines 885-919): selects the items with
status `in [BrandStatus.ANALYZING, BrandStatus.COLLECTED]`. -/
def batch_recheck_all (ex : Executors) (st : SessionSt) : SessionSt × List Event :=
  let selected := st.brands.filter (fun p => pyStatusMem p.2.status [.analyzing, .collected])
  ({ st with brands :=
      st.brands.map (fun p =>
        if pyStatusMem p.2.status [.analyzing, .collected] then
          (p.1, batchRecheckItem ex p.1 p.2)
        else p) },
   selected.map (fun p => Event.call "collect" p.1))

/-- `_get_brands_by_status` applied to the incomplete-check list of
`run_session` (source lines 441-444): the names of the items whose
status is `in [PENDING, COLLECTING, ANALYZING, COLLECTED, FAILED]`. -/
def incompleteBrands (brands : List (String × BrandState)) : List String :=
  (brands.filter (fun p =>
    pyStatusMem p.2.status [.pending, .collecting, .analyzing, .collected, .failed])).map
    (fun p => p.1)

/-- One retry phase of `run_session` (source lines 439-477): if the
incomplete list is non-empty, wait, re-check, download, summarize; the
final phase ("PHASE 5") additionally re-runs collect, download and
summarize.  If the incomplete list is empty the phase does nothing. -/
def retryPhase (ex : Executors) (now : String) (waitSeconds : Nat) (isFinal : Bool)
    (st : SessionSt) : SessionSt × List Event :=
  if (incompleteBrands st.brands).isEmpty then (st, [])
  else
    let (st1, e1) := batch_recheck_all ex st
    let (st2, e2) := batch_download_all ex now st1
    let (st3, e3) := batch_summarize_all ex now st2
    if isFinal then
      let (st4, e4) := batch_collect_all ex now st3
      let (st5, e5) := batch_download_all ex now st4
      let (st6, e6) := batch_summarize_all ex now st5
      (st6, Event.sleep waitSeconds :: (e1 ++ e2 ++ e3 ++ e4 ++ e5 ++ e6))
    else
      (st3, Event.sleep waitSeconds :: (e1 ++ e2 ++ e3))

/-- The `retry_phases` table of `run_session` (source lines 432-437):
wait seconds of each phase, and whether it is the final phase. -/
def phaseSpecs : List (Nat × Bool) :=
  [(300, false), (600, false), (1800, false), (3600, true)]

/-- The retry-phase loop of `run_session` (source lines 439-479). -/
def retryPhases (ex : Executors) (now : String) (st : SessionSt) : SessionSt × List Event :=
  phaseSpecs.foldl
    (fun (acc : SessionSt × List Event) ph =>
      let (st', es) := retryPhase ex now ph.1 ph.2 acc.1
      (st', acc.2 ++ es))
    (st, [])

/-- Phase 1 of `run_session` (source lines 413-427): resume handling,
then the collect, download and summarize batches. -/
def initialPipeline (ex : Executors) (now : String) (st : SessionSt) :
    SessionSt × List Event :=
  let (b1, e1) := handle_resume_brands ex st.brands
  let (st2, e2) := batch_collect_all ex now { st with brands := b1 }
  let (st3, e3) := batch_download_all ex now st2
  let (st4, e4) := batch_summarize_all ex now st3
  (st4, e1 ++ e2 ++ e3 ++ e4)

/-- `run_session` (source lines 394-496), observable core: the initial
pipeline followed by the retry phases, with `completed_at` stamped at
the end (progress printing, CSV export and state saving have no effect
on the session's item map, counters or executor calls). -/
def run_session (ex : Executors) (now : String) (st : SessionSt) : SessionSt × List Event :=
  let (st1, e1) := initialPipeline ex now st
  let (st2, e2) := retryPhases ex now st1
  ({ st2 with completed_at := some now }, e1 ++ e2)

/-! ### Session creation and status reporting -/

/-- The fresh-session brand-map comprehension of `create_session`
(source lines 237-240): a Python dict built by inserting
`BrandState(name=brand_name)` for each name of the parsed list; a
repeated key overwrites the value in place (keeping the first
occurrence's position). -/
def createBrands (brands_list : List String) : List (String × BrandState) :=
  brands_list.foldl (fun m n => assocSet m n (newBrand n)) []

/-- The merge loop of `create_session` for an existing session (source
lines 193-196): a parsed brand name is added as a fresh `PENDING` item
only when it is not already a key of the loaded map (exact string
comparison); existing entries are never modified. -/
def mergeBrands (existing : List (String × BrandState)) (brands_list : List String) :
    List (String × BrandState) :=
  brands_list.foldl
    (fun m n => if assocContains m n then m else m ++ [(n, newBrand n)]) existing

/-- `status_counts[status] = status_counts.get(status, 0) + 1` (source
line 380) on an insertion-ordered dict. -/
def dictIncr : List (String × Nat) → String → List (String × Nat)
  | [], k => [(k, 1)]
  | (k', v) :: rest, k =>
    if k' = k then (k', v + 1) :: rest else (k', v) :: dictIncr rest k

/-- The `status_breakdown` dict of `get_session_status` (source lines
377-380): one pass over the item map, counting each item under the
string tag of its own status (enum or plain string). -/
def statusBreakdown (brands : List (String × BrandState)) : List (String × Nat) :=
  brands.foldl (fun acc p => dictIncr acc (statusValue p.2.status)) []

/-- First occurrences of a list of names, given the names already seen:
the reference order/key set produced by repeated Python dict insertion. -/
def dedupKeepFirst (seen : List String) : List String → List String
  | [] => []
  | n :: rest =>
    if n ∈ seen then dedupKeepFirst seen rest
    else n :: dedupKeepFirst (n :: seen) rest

/-! ### Helper lemmas -/

theorem pyStatusEq_iff (s : PyStatus) (t : BrandStatus) :
    pyStatusEq s t = true ↔ s = PyStatus.enum t := by
  cases s with
  | enum u => simp [pyStatusEq]
  | str u => simp [pyStatusEq]

theorem dictIncr_sum (m : List (String × Nat)) (k : String) :
    ((dictIncr m k).map Prod.snd).sum = (m.map Prod.snd).sum + 1 := by
  induction m with
  | nil => simp [dictIncr]
  | cons p rest ih =>
    by_cases h : p.1 = k <;> simp [dictIncr, h, ih] <;> omega

theorem dictIncr_get (m : List (String × Nat)) (k t : String) :
    assocGetD (dictIncr m k) t 0 = assocGetD m t 0 + (if t = k then 1 else 0) := by
  induction m with
  | nil =>
    by_cases h : t = k
    · subst h; simp [dictIncr, assocGetD]
    · simp [dictIncr, assocGetD, h, Ne.symm h]
  | cons p rest ih =>
    obtain ⟨k', v⟩ := p
    by_cases hk : k' = k
    · subst hk
      by_cases ht : k' = t
      · subst ht; simp [dictIncr, assocGetD]
      · simp [dictIncr, assocGetD, ht, Ne.symm ht]
    · by_cases ht : k' = t
      · subst ht
        simp [dictIncr, assocGetD, hk, Ne.symm hk]
      · simp [dictIncr, assocGetD, hk, ht, ih]

theorem statusBreakdown_go_sum (l : List (String × BrandState)) :
    ∀ acc : List (String × Nat),
      ((l.foldl (fun a p => dictIncr a (statusValue p.2.status)) acc).map Prod.snd).sum
        = (acc.map Prod.snd).sum + l.length := by
  induction l with
  | nil => intro acc; simp
  | cons p rest ih =>
    intro acc
    simp only [List.foldl_cons, ih, dictIncr_sum, List.length_cons]
    omega

theorem statusBreakdown_go_get (l : List (String × BrandState)) :
    ∀ (acc : List (String × Nat)) (t : String),
      assocGetD (l.foldl (fun a p => dictIncr a (statusValue p.2.status)) acc) t 0
        = assocGetD acc t 0 + l.countP (fun p => decide (statusValue p.2.status = t)) := by
  induction l with
  | nil => intro acc t; simp
  | cons p rest ih =>
    intro acc t
    simp only [List.foldl_cons, ih, dictIncr_get, List.countP_cons]
    by_cases h : statusValue p.2.status = t
    · simp [h]; omega
    · simp [h, Ne.symm h]

theorem summarizeCounts_eq (ex : Executors) (l : List (String × BrandState)) :
    ∀ c f : Nat,
      l.foldl
        (fun (a : Nat × Nat) p =>
          if summarize_step_simple ex p.1 = "summarized" then (a.1 + 1, a.2) else (a.1, a.2 + 1))
        (c, f)
      = (c + l.countP (fun p => decide (summarize_step_simple ex p.1 = "summarized")),
         f + l.countP (fun p => !(decide (summarize_step_simple ex p.1 = "summarized")))) := by
  induction l with
  | nil => intro c f; simp
  | cons p rest ih =>
    intro c f
    by_cases h : summarize_step_simple ex p.1 = "summarized" <;>
      simp [List.countP_cons, h, ih, Prod.ext_iff] <;> omega

theorem assocContains_iff {β : Type} (m : List (String × β)) (k : String) :
    assocContains m k = true ↔ k ∈ m.map Prod.fst := by
  simp [assocContains, List.any_eq_true, List.mem_map]

theorem dedupKeepFirst_congr (l : List String) :
    ∀ s₁ s₂ : List String, (∀ x, x ∈ s₁ ↔ x ∈ s₂) →
      dedupKeepFirst s₁ l = dedupKeepFirst s₂ l := by
  induction l with
  | nil => intro s₁ s₂ _; rfl
  | cons n rest ih =>
    intro s₁ s₂ h
    simp only [dedupKeepFirst]
    by_cases hn : n ∈ s₁
    · rw [if_pos hn, if_pos ((h n).1 hn), ih s₁ s₂ h]
    · rw [if_neg hn, if_neg (fun hx => hn ((h n).2 hx)),
        ih (n :: s₁) (n :: s₂) (by intro x; simp [h x])]

theorem assocSet_of_contains (m : List (String × BrandState)) (n : String)
    (hval : ∀ p ∈ m, p.2 = newBrand p.1) (hc : assocContains m n = true) :
    assocSet m n (newBrand n) = m := by
  induction m with
  | nil => simp [assocContains] at hc
  | cons p rest ih =>
    obtain ⟨k, v⟩ := p
    by_cases hk : k = n
    · subst hk
      have hv : v = newBrand k := hval (k, v) (by simp)
      simp [assocSet, hv]
    · have hc' : assocContains rest n = true := by
        simpa [assocContains, hk] using hc
      have hval' : ∀ p ∈ rest, p.2 = newBrand p.1 :=
        fun p hp => hval p (List.mem_cons_of_mem _ hp)
      simp [assocSet, hk, ih hval' hc']

theorem assocSet_of_not_contains {β : Type} (m : List (String × β)) (n : String) (v : β)
    (hc : assocContains m n = false) : assocSet m n v = m ++ [(n, v)] := by
  induction m with
  | nil => rfl
  | cons p rest ih =>
    obtain ⟨k, w⟩ := p
    have hk : ¬ k = n := by
      intro h; subst h; simp [assocContains] at hc
    have hc' : assocContains rest n = false := by
      cases hcc : assocContains rest n
      · rfl
      · exfalso
        have : assocContains ((k, w) :: rest) n = true := by
          simp [assocContains] at hcc ⊢
          exact Or.inr hcc
        rw [this] at hc; cases hc
    simp [assocSet, hk, ih hc']

theorem createBrands_go (l : List String) :
    ∀ acc : List (String × BrandState), (∀ p ∈ acc, p.2 = newBrand p.1) →
      l.foldl (fun m n => assocSet m n (newBrand n)) acc
        = acc ++ (dedupKeepFirst (acc.map Prod.fst) l).map (fun n => (n, newBrand n)) := by
  induction l with
  | nil => intro acc _; simp [dedupKeepFirst]
  | cons n rest ih =>
    intro acc h
    simp only [List.foldl_cons, dedupKeepFirst]
    by_cases hc : assocContains acc n = true
    · have hmem : n ∈ acc.map Prod.fst := (assocContains_iff acc n).1 hc
      rw [if_pos hmem, assocSet_of_contains acc n h hc, ih acc h]
    · have hmem : ¬ n ∈ acc.map Prod.fst := fun hm => hc ((assocContains_iff acc n).2 hm)
      have hcf : assocContains acc n = false := by
        cases hcc : assocContains acc n
        · rfl
        · exact absurd hcc hc
      rw [if_neg hmem, assocSet_of_not_contains acc n _ hcf]
      have h' : ∀ p ∈ acc ++ [(n, newBrand n)], p.2 = newBrand p.1 := by
        intro p hp
        rcases List.mem_append.1 hp with hp | hp
        · exact h p hp
        · simp at hp; rw [hp]
      rw [ih (acc ++ [(n, newBrand n)]) h',
        dedupKeepFirst_congr rest ((acc ++ [(n, newBrand n)]).map Prod.fst)
          (n :: acc.map Prod.fst) (by intro x; simp [or_comm])]
      simp

theorem mergeBrands_go (l : List String) :
    ∀ acc : List (String × BrandState),
      l.foldl (fun m n => if assocContains m n then m else m ++ [(n, newBrand n)]) acc
        = acc ++ (dedupKeepFirst (acc.map Prod.fst) l).map (fun n => (n, newBrand n)) := by
  induction l with
  | nil => intro acc; simp [dedupKeepFirst]
  | cons n rest ih =>
    intro acc
    simp only [List.foldl_cons, dedupKeepFirst]
    by_cases hc : assocContains acc n = true
    · have hmem : n ∈ acc.map Prod.fst := (assocContains_iff acc n).1 hc
      rw [if_pos hmem]
      simp only [hc, if_true]
      exact ih acc
    · have hmem : ¬ n ∈ acc.map Prod.fst := fun hm => hc ((assocContains_iff acc n).2 hm)
      rw [if_neg hmem]
      simp only [hc, if_false, Bool.false_eq_true]
      rw [ih (acc ++ [(n, newBrand n)]),
        dedupKeepFirst_congr rest ((acc ++ [(n, newBrand n)]).map Prod.fst)
          (n :: acc.map Prod.fst) (by intro x; simp [or_comm])]
      simp

/-! ### C1: save/load round-trip -/

/-- C1.  Save/load round-trip: saving a session state and loading the
document back reconstructs the same configuration and an item map with
the same keys, where every item is the save/load image of the original
one; that image keeps the original's status string tag, per-step
attempt counts and error list; and saving the loaded session again
produces the very same document (so a saved-loaded-saved session is
still readable: plain-string statuses are passed through by
`_save_session_state`'s `isinstance` check). -/
theorem c1_save_load_round_trip (cfg : SessionConfig) (st : SessionSt) :
    (loadSessionDoc (saveSessionDoc cfg st)).1 = cfg
    ∧ (loadSessionDoc (saveSessionDoc cfg st)).2.brands.map Prod.fst
        = st.brands.map Prod.fst
    ∧ (loadSessionDoc (saveSessionDoc cfg st)).2.brands
        = st.brands.map (fun p => (p.1, loadBrand (saveBrand p.2)))
    ∧ (∀ b : BrandState,
        statusValue (loadBrand (saveBrand b)).status = statusValue b.status
        ∧ (loadBrand (saveBrand b)).attempts = b.attempts
        ∧ (loadBrand (saveBrand b)).errors = b.errors)
    ∧ saveSessionDoc (loadSessionDoc (saveSessionDoc cfg st)).1
        (loadSessionDoc (saveSessionDoc cfg st)).2 = saveSessionDoc cfg st := by
  refine ⟨rfl, ?_, ?_, fun b => ⟨rfl, rfl, rfl⟩, ?_⟩
  · simp [loadSessionDoc, saveSessionDoc, List.map_map, Function.comp]
  · simp [loadSessionDoc, saveSessionDoc, List.map_map, Function.comp]
  · simp [loadSessionDoc, saveSessionDoc, List.map_map, Function.comp]
    exact ⟨rfl, fun a b _ => rfl⟩

/-! ### C10: status breakdown is a partition -/

/-- C10.  The `status_breakdown` mapping of `get_session_status` counts
each item exactly once, under the string tag of its own status: for
every tag the recorded count is the number of items carrying that tag,
and the per-status counts sum to the number of items in the session's
item map. -/
theorem c10_status_breakdown_partition (brands : List (String × BrandState)) :
    ((statusBreakdown brands).map Prod.snd).sum = brands.length
    ∧ ∀ t : String,
        assocGetD (statusBreakdown brands) t 0
          = brands.countP (fun p => decide (statusValue p.2.status = t)) := by
  constructor
  · simpa using statusBreakdown_go_sum brands []
  · intro t
    simpa [assocGetD] using statusBreakdown_go_get brands [] t

/-! ### C9: counter update locality -/

/-- C9.  The session counters `completed_brands` and `failed_brands`
are left unchanged by the collect batch, the download batch and the
recheck batch; the summarize batch increments `completed_brands` by
exactly the number of processed (i.e. `DOWNLOADED`-selected) items
whose summarize step returned `"summarized"`, and `failed_brands` by
exactly the number of processed items whose summarize step did not. -/
theorem c9_counter_locality (ex : Executors) (now : String) (st : SessionSt) :
    ((batch_collect_all ex now st).1.completed_brands = st.completed_brands
      ∧ (batch_collect_all ex now st).1.failed_brands = st.failed_brands)
    ∧ ((batch_download_all ex now st).1.completed_brands = st.completed_brands
      ∧ (batch_download_all ex now st).1.failed_brands = st.failed_brands)
    ∧ ((batch_recheck_all ex st).1.completed_brands = st.completed_brands
      ∧ (batch_recheck_all ex st).1.failed_brands = st.failed_brands)
    ∧ ((batch_summarize_all ex now st).1.completed_brands
        = st.completed_brands
          + (st.brands.filter (fun p => pyStatusEq p.2.status .downloaded)).countP
              (fun p => decide (summarize_step_simple ex p.1 = "summarized"))
      ∧ (batch_summarize_all ex now st).1.failed_brands
        = st.failed_brands
          + (st.brands.filter (fun p => pyStatusEq p.2.status .downloaded)).countP
              (fun p => !(decide (summarize_step_simple ex p.1 = "summarized")))) := by
  refine ⟨⟨rfl, rfl⟩, ⟨rfl, rfl⟩, ⟨rfl, rfl⟩, ?_, ?_⟩
  · simp [batch_summarize_all, summarizeCounts_eq]
  · simp [batch_summarize_all, summarizeCounts_eq]

/-! ### C5: dedup at session creation -/

/-- C5 counterexample.  The claim says creation deduplicates brand
names case-insensitively, so that the list `"Acme", "acme", "ACME
Corp"` yields exactly the two items `"Acme"` and `"ACME Corp"`.  The
dict comprehension of `create_session` keys items by the exact string:
the same list yields three items, among them both `"Acme"` and
`"acme"`, which are equal up to case. -/
theorem c5_counterexample :
    createBrands ["Acme", "acme", "ACME Corp"]
      = [("Acme", newBrand "Acme"), ("acme", newBrand "acme"),
         ("ACME Corp", newBrand "ACME Corp")]
    ∧ (createBrands ["Acme", "acme", "ACME Corp"]).map Prod.fst ≠ ["Acme", "ACME Corp"]
    ∧ "Acme".data.map Char.toLower = "acme".data.map Char.toLower := by
  exact ⟨by decide, by decide, by decide⟩

/-- C5 (amended).  For every brand list supplied to `create_session`
for a fresh session, the resulting item map contains exactly one item
per exactly-distinct (case-sensitive) brand name, keyed by the name, in
first-occurrence order, each a fresh `PENDING` item: the map equals the
first-occurrence dedup of the list, paired with `BrandState(name=n)`. -/
theorem c5_create_session_dedup (l : List String) :
    createBrands l = (dedupKeepFirst [] l).map (fun n => (n, newBrand n)) := by
  simpa using createBrands_go l [] (by intro p hp; simp at hp)

/-! ### C7: merge on reuse -/

/-- A pre-existing item with live state, used to exhibit the merge
behaviour of `create_session` on an existing session. -/
def acmeCollected : BrandState :=
  { name := "Acme"
    status := .enum .collected
    attempts := [("collect", 1), ("download", 0), ("summarize", 0)]
    last_attempt := []
    errors := ["earlier error"] }

/-- C7 counterexample.  The claim says merging into an existing session
unions by case-insensitive name, so supplying `"acme"` to a session
that already holds `"Acme"` adds nothing.  The merge loop of
`create_session` tests membership by the exact string: `"acme"` is
added as a second, fresh item even though it equals `"Acme"` up to
case. -/
theorem c7_counterexample :
    mergeBrands [("Acme", acmeCollected)] ["acme"]
      = [("Acme", acmeCollected), ("acme", newBrand "acme")]
    ∧ (mergeBrands [("Acme", acmeCollected)] ["acme"]).length = 2
    ∧ "acme".data.map Char.toLower = "Acme".data.map Char.toLower := by
  exact ⟨by decide, by decide, by decide⟩

/-- C7 (amended).  When `create_session` is called with the name of an
existing session, the resulting item map is the loaded map extended, by
union on the exact brand name: every pre-existing item is kept
unchanged (status, attempts, last_attempt and errors untouched) in its
original position, and exactly those supplied names that are not
already keys (by exact string comparison) are appended as fresh
`PENDING` items, in first-occurrence order. -/
theorem c7_merge_on_reuse (existing : List (String × BrandState)) (l : List String) :
    mergeBrands existing l
      = existing
        ++ (dedupKeepFirst (existing.map Prod.fst) l).map (fun n => (n, newBrand n)) :=
  mergeBrands_go l existing

/-! ### C2: fetch-step eligibility -/

/-- An executor assignment that always succeeds; used to exhibit
batch-selection behaviour (the selection itself does not depend on the
executors). -/
def exAlwaysOk : Executors :=
  { collect := fun _ => .ok "analyzed"
    download := fun _ => .ok (some "downloaded")
    summarize := fun _ => .ok (some (String.mk (List.replicate 150 'a'))) }

/-- The item map reconstructed by `load_session` from a document whose
single brand was saved in status `analyzed`: the status comes back as
the plain string `"analyzed"`. -/
def loadedAnalyzedBrand : BrandState :=
  loadBrand
    { name := "A"
      status := "analyzed"
      attempts := [("collect", 1), ("download", 0), ("summarize", 0)]
      last_attempt := []
      errors := [] }

/-- A session state holding only the loaded item `"A"`. -/
def loadedAnalyzedSt : SessionSt :=
  { brands := [("A", loadedAnalyzedBrand)]
    completed_brands := 0
    failed_brands := 0
    started_at := none
    completed_at := none }

/-- C2 counterexample.  The claim says the download batch selects every
item whose current status is `analyzed`, also when the status was
reconstructed from a loaded session document.  For an item loaded from
disk the status is the plain string `"analyzed"`, and
`_batch_download_all`'s `state.status == BrandStatus.ANALYZED`
comparison is false for it: the batch makes no executor call at all on
a session holding exactly that item. -/
theorem c2_counterexample :
    statusValue loadedAnalyzedBrand.status = "analyzed"
    ∧ (batch_download_all exAlwaysOk "t" loadedAnalyzedSt).2 = []
    ∧ (batch_download_all exAlwaysOk "t" loadedAnalyzedSt).2 ≠ [Event.call "download" "A"] := by
  exact ⟨rfl, rfl, by decide⟩

/-- C2 (amended).  `_batch_download_all` invokes the download executor
for exactly those items whose status field is the enum member
`ANALYZED`: a `"download"` call for brand `n` occurs in the batch's
invocation list iff the map holds an entry `(n, b)` with `b.status =
enum analyzed`.  Items in every other enum state, and items whose
status is a plain string reconstructed by `load_session` (even the
string `"analyzed"`), are never selected. -/
theorem c2_download_eligibility (ex : Executors) (now : String) (st : SessionSt)
    (n : String) :
    Event.call "download" n ∈ (batch_download_all ex now st).2
      ↔ ∃ b, (n, b) ∈ st.brands ∧ b.status = PyStatus.enum .analyzed := by
  simp only [batch_download_all, List.mem_map, List.mem_filter]
  constructor
  · rintro ⟨p, ⟨hp, hsel⟩, hev⟩
    have hn : p.1 = n := by
      cases hev; rfl
    exact ⟨p.2, by rw [← hn]; exact hp, (pyStatusEq_iff _ _).1 hsel⟩
  · rintro ⟨b, hb, hstat⟩
    exact ⟨(n, b), ⟨hb, (pyStatusEq_iff _ _).2 hstat⟩, rfl⟩

/-! ### C3: single-item failure isolation -/

/-- C3 (amended).  For every batch (collect, download, summarize) and
every choice of executors — including executors that raise for some
items — the batch invokes the step executor for every selected item, in
map order (so one item's exception never aborts the batch or skips a
later item); and for every selected item whose executor raises, the
exception is caught, the item's status becomes `FAILED`, and its
`errors` list is left exactly as it was (the batch loops only print the
error; nothing is appended). -/
theorem c3_failure_isolation (ex : Executors) (now : String) (st : SessionSt) :
    ((batch_collect_all ex now st).2
        = (st.brands.filter (fun p => pyStatusEq p.2.status .pending)).map
            (fun p => Event.call "collect" p.1)
      ∧ (batch_download_all ex now st).2
        = (st.brands.filter (fun p => pyStatusEq p.2.status .analyzed)).map
            (fun p => Event.call "download" p.1)
      ∧ (batch_summarize_all ex now st).2
        = (st.brands.filter (fun p => pyStatusEq p.2.status .downloaded)).map
            (fun p => Event.call "summarize" p.1))
    ∧ (∀ n b e, (n, b) ∈ st.brands → pyStatusEq b.status .pending = true →
        ex.collect n = .error e →
          (n, collectUpdate ex now n b) ∈ (batch_collect_all ex now st).1.brands
          ∧ (collectUpdate ex now n b).status = .enum .failed
          ∧ (collectUpdate ex now n b).errors = b.errors)
    ∧ (∀ n b e, (n, b) ∈ st.brands → pyStatusEq b.status .analyzed = true →
        ex.download n = .error e →
          (n, downloadUpdate ex now n b) ∈ (batch_download_all ex now st).1.brands
          ∧ (downloadUpdate ex now n b).status = .enum .failed
          ∧ (downloadUpdate ex now n b).errors = b.errors)
    ∧ (∀ n b e, (n, b) ∈ st.brands → pyStatusEq b.status .downloaded = true →
        ex.summarize n = .error e →
          (n, summarizeUpdate ex now n b) ∈ (batch_summarize_all ex now st).1.brands
          ∧ (summarizeUpdate ex now n b).status = .enum .failed
          ∧ (summarizeUpdate ex now n b).errors = b.errors) := by
  refine ⟨⟨rfl, rfl, rfl⟩, ?_, ?_, ?_⟩
  · intro n b e hmem hsel herr
    refine ⟨?_, ?_, rfl⟩
    · have hf : (fun p : String × BrandState =>
          if pyStatusEq p.2.status .pending then (p.1, collectUpdate ex now p.1 p.2) else p)
            (n, b) = (n, collectUpdate ex now n b) := by
        simp [hsel]
      exact hf ▸ List.mem_map_of_mem _ hmem
    · simp [collectUpdate, collect_step_simple, herr]
  · intro n b e hmem hsel herr
    refine ⟨?_, ?_, rfl⟩
    · have hf : (fun p : String × BrandState =>
          if pyStatusEq p.2.status .analyzed then (p.1, downloadUpdate ex now p.1 p.2) else p)
            (n, b) = (n, downloadUpdate ex now n b) := by
        simp [hsel]
      exact hf ▸ List.mem_map_of_mem _ hmem
    · simp [downloadUpdate, download_step_simple, herr]
  · intro n b e hmem hsel herr
    refine ⟨?_, ?_, rfl⟩
    · have hf : (fun p : String × BrandState =>
          if pyStatusEq p.2.status .downloaded then (p.1, summarizeUpdate ex now p.1 p.2) else p)
            (n, b) = (n, summarizeUpdate ex now n b) := by
        simp [hsel]
      exact hf ▸ List.mem_map_of_mem _ hmem
    · simp [summarizeUpdate, summarize_step_simple, herr]

/-- Executors that raise exactly for the three probe items `"P"`
(pending, collect step), `"D"` (analyzed, download step) and `"S"`
(downloaded, summarize step). -/
def exErr : Executors :=
  { collect := fun n => if n = "P" then .error "boom" else .ok "collected"
    download := fun n => if n = "D" then .error "boom" else .ok (some "downloaded")
    summarize := fun n => if n = "S" then .error "boom" else .ok none }

/-- Probe item in `ANALYZED` state. -/
def analyzedD : BrandState := { newBrand "D" with status := .enum .analyzed }

/-- Probe item in `DOWNLOADED` state. -/
def downloadedS : BrandState := { newBrand "S" with status := .enum .downloaded }

/-- Session holding the three probe items. -/
def stIso : SessionSt :=
  { brands := [("P", newBrand "P"), ("D", analyzedD), ("S", downloadedS)]
    completed_brands := 0
    failed_brands := 0
    started_at := none
    completed_at := none }

/-- Witness for `c3_failure_isolation`: the hypotheses hold at the
probe session and erroring executors, and the theorem's conclusions
follow at them. -/
theorem c3_failure_isolation_witness :
    (("P", newBrand "P") ∈ stIso.brands ∧ pyStatusEq (newBrand "P").status .pending = true
      ∧ exErr.collect "P" = .error "boom"
      ∧ ("D", analyzedD) ∈ stIso.brands ∧ pyStatusEq analyzedD.status .analyzed = true
      ∧ exErr.download "D" = .error "boom"
      ∧ ("S", downloadedS) ∈ stIso.brands ∧ pyStatusEq downloadedS.status .downloaded = true
      ∧ exErr.summarize "S" = .error "boom")
    ∧ ((("P", collectUpdate exErr "t" "P" (newBrand "P"))
          ∈ (batch_collect_all exErr "t" stIso).1.brands
        ∧ (collectUpdate exErr "t" "P" (newBrand "P")).status = .enum .failed
        ∧ (collectUpdate exErr "t" "P" (newBrand "P")).errors = (newBrand "P").errors)
      ∧ (("D", downloadUpdate exErr "t" "D" analyzedD)
          ∈ (batch_download_all exErr "t" stIso).1.brands
        ∧ (downloadUpdate exErr "t" "D" analyzedD).status = .enum .failed
        ∧ (downloadUpdate exErr "t" "D" analyzedD).errors = analyzedD.errors)
      ∧ (("S", summarizeUpdate exErr "t" "S" downloadedS)
          ∈ (batch_summarize_all exErr "t" stIso).1.brands
        ∧ (summarizeUpdate exErr "t" "S" downloadedS).status = .enum .failed
        ∧ (summarizeUpdate exErr "t" "S" downloadedS).errors = downloadedS.errors)) :=
  ⟨⟨by decide, rfl, rfl, by decide, rfl, rfl, by decide, rfl, rfl⟩,
   (c3_failure_isolation exErr "t" stIso).2.1 "P" (newBrand "P") "boom" (by decide) rfl rfl,
   (c3_failure_isolation exErr "t" stIso).2.2.1 "D" analyzedD "boom" (by decide) rfl rfl,
   (c3_failure_isolation exErr "t" stIso).2.2.2 "S" downloadedS "boom" (by decide) rfl rfl⟩

/-- Executors whose collect step raises for the third brand `"C"` only. -/
def exMidErr : Executors :=
  { collect := fun n => if n = "C" then .error "boom" else .ok "collected"
    download := fun _ => .ok (some "downloaded")
    summarize := fun _ => .ok none }

/-- A batch of five `PENDING` items. -/
def stFive : SessionSt :=
  { brands := [("A", newBrand "A"), ("B", newBrand "B"), ("C", newBrand "C"),
               ("D", newBrand "D"), ("E", newBrand "E")]
    completed_brands := 0
    failed_brands := 0
    started_at := none
    completed_at := none }

/-- C3 counterexample.  In a collect batch of five items where the
third executor call raises, all five items do receive their executor
call and the other four get their normal status — but the failed item's
error list stays empty: the claimed append of an error message to the
item's `errors` does not happen in the batch loops (only the unused
retry-capable `_execute_step` path appends). -/
theorem c3_counterexample :
    (batch_collect_all exMidErr "t" stFive).2
      = [Event.call "collect" "A", Event.call "collect" "B", Event.call "collect" "C",
         Event.call "collect" "D", Event.call "collect" "E"]
    ∧ (batch_collect_all exMidErr "t" stFive).1.brands.map
        (fun p => (p.1, statusValue p.2.status, p.2.errors))
      = [("A", "collected", []), ("B", "collected", []), ("C", "failed", []),
         ("D", "collected", []), ("E", "collected", [])] := by
  exact ⟨by decide, by decide⟩

/-! ### C8: summarize success criterion -/

/-- C8.  For every item processed by the summarize batch (i.e. selected
as `DOWNLOADED`), the processed item appears in the batch result, its
status is `SUMMARIZED` exactly when the summarization executor returned
a non-empty text of more than 100 characters, and in every other case —
`None`, empty text, text of at most 100 characters, or an exception —
its status is `FAILED`. -/
theorem c8_summarize_success_criterion (ex : Executors) (now : String) (st : SessionSt)
    (n : String) (b : BrandState)
    (hmem : (n, b) ∈ st.brands) (hsel : pyStatusEq b.status .downloaded = true) :
    (n, summarizeUpdate ex now n b) ∈ (batch_summarize_all ex now st).1.brands
    ∧ ((summarizeUpdate ex now n b).status = .enum .summarized
        ↔ ∃ s, ex.summarize n = .ok (some s) ∧ s ≠ "" ∧ 100 < s.length)
    ∧ ((summarizeUpdate ex now n b).status = .enum .summarized
        ∨ (summarizeUpdate ex now n b).status = .enum .failed) := by
  refine ⟨?_, ?_, ?_⟩
  · have hf : (fun p : String × BrandState =>
        if pyStatusEq p.2.status .downloaded then (p.1, summarizeUpdate ex now p.1 p.2) else p)
          (n, b) = (n, summarizeUpdate ex now n b) := by
      simp [hsel]
    exact hf ▸ List.mem_map_of_mem _ hmem
  · cases hx : ex.summarize n with
    | error e => simp [summarizeUpdate, summarize_step_simple, hx]
    | ok o =>
      cases o with
      | none => simp [summarizeUpdate, summarize_step_simple, hx]
      | some s =>
        by_cases h0 : s = ""
        · simp [summarizeUpdate, summarize_step_simple, hx, h0]
        · by_cases hl : 100 < s.length
          · simp [summarizeUpdate, summarize_step_simple, hx, h0, hl]
          · simp [summarizeUpdate, summarize_step_simple, hx, h0, hl]
  · by_cases h : summarize_step_simple ex n = "summarized"
    · exact Or.inl (by simp [summarizeUpdate, h])
    · exact Or.inr (by simp [summarizeUpdate, h])

/-- A 150-character summary text. -/
def s150 : String := String.mk (List.replicate 150 'a')

/-- Executors whose summarize step produces the 150-character text. -/
def ex150 : Executors :=
  { collect := fun _ => .ok "collected"
    download := fun _ => .ok (some "downloaded")
    summarize := fun _ => .ok (some s150) }

/-- Probe item in `DOWNLOADED` state under the name `"A"`. -/
def downloadedA : BrandState := { newBrand "A" with status := .enum .downloaded }

/-- Session holding only the downloaded probe item. -/
def stDl : SessionSt :=
  { brands := [("A", downloadedA)]
    completed_brands := 0
    failed_brands := 0
    started_at := none
    completed_at := none }

/-- Witness for `c8_summarize_success_criterion` at a session with one
downloaded item and an executor producing a 150-character summary. -/
theorem c8_summarize_success_criterion_witness :
    (("A", downloadedA) ∈ stDl.brands ∧ pyStatusEq downloadedA.status .downloaded = true)
    ∧ (("A", summarizeUpdate ex150 "t" "A" downloadedA)
        ∈ (batch_summarize_all ex150 "t" stDl).1.brands
      ∧ ((summarizeUpdate ex150 "t" "A" downloadedA).status = .enum .summarized
          ↔ ∃ s, ex150.summarize "A" = .ok (some s) ∧ s ≠ "" ∧ 100 < s.length)
      ∧ ((summarizeUpdate ex150 "t" "A" downloadedA).status = .enum .summarized
          ∨ (summarizeUpdate ex150 "t" "A" downloadedA).status = .enum .failed)) :=
  ⟨⟨by decide, rfl⟩,
   c8_summarize_success_criterion ex150 "t" stDl "A" downloadedA (by decide) rfl⟩

/-! ### C4: resume reset -/

/-- Everything `run_session` does after the reset loop of
`_handle_resume_brands`: the resume recheck of `analyzing`/`collected`
items, the three initial batches, the retry phases, and the
`completed_at` stamp — applied to the post-reset state. -/
def afterResetPipeline (ex : Executors) (now : String) (st : SessionSt) :
    SessionSt × List Event :=
  let (b1, e1) := resumeRecheckPhase ex st.brands
  let (st2, e2) := batch_collect_all ex now { st with brands := b1 }
  let (st3, e3) := batch_download_all ex now st2
  let (st4, e4) := batch_summarize_all ex now st3
  let (st5, e5) := retryPhases ex now st4
  ({ st5 with completed_at := some now }, e1 ++ e2 ++ e3 ++ e4 ++ e5)

/-- C4.  Resume reset: `run_session` factors as the reset loop followed
by everything else — every executor call of the whole run is made from
the already-reset state (the reset loop itself takes no executors) —
and the reset loop sends every item whose status tag is `failed` or
`no_brand_found` (enum or loaded string alike) to the enum `PENDING`
with an empty error list. -/
theorem c4_resume_reset (ex : Executors) (now : String) (st : SessionSt) :
    run_session ex now st
      = afterResetPipeline ex now { st with brands := resetPhase st.brands }
    ∧ ∀ n b, (n, b) ∈ st.brands →
        (statusValue b.status = "failed" ∨ statusValue b.status = "no_brand_found") →
        (n, { b with status := .enum .pending, errors := [] }) ∈ resetPhase st.brands := by
  constructor
  · simp only [run_session, initialPipeline, handle_resume_brands, afterResetPipeline]
  · intro n b hmem hcond
    have hf : (fun p : String × BrandState =>
        if statusValue p.2.status = "failed" ∨ statusValue p.2.status = "no_brand_found" then
          (p.1, { p.2 with status := .enum .pending, errors := [] })
        else p) (n, b) = (n, { b with status := .enum .pending, errors := [] }) := by
      simp [hcond]
    exact hf ▸ List.mem_map_of_mem _ hmem

/-- An item as reconstructed by `load_session` from a document whose
brand had failed: status is the plain string `"failed"` and the error
log is non-empty. -/
def failedLoaded : BrandState :=
  loadBrand
    { name := "F"
      status := "failed"
      attempts := [("collect", 1), ("download", 0), ("summarize", 0)]
      last_attempt := []
      errors := ["collect attempt 1 failed"] }

/-- A loaded session holding only the failed item. -/
def stResume : SessionSt :=
  { brands := [("F", failedLoaded)]
    completed_brands := 0
    failed_brands := 0
    started_at := none
    completed_at := none }

/-- Witness for `c4_resume_reset` at a loaded session with one failed
item. -/
theorem c4_resume_reset_witness :
    (("F", failedLoaded) ∈ stResume.brands
      ∧ (statusValue failedLoaded.status = "failed"
          ∨ statusValue failedLoaded.status = "no_brand_found"))
    ∧ (run_session exAlwaysOk "t" stResume
        = afterResetPipeline exAlwaysOk "t" { stResume with brands := resetPhase stResume.brands }
      ∧ ("F", { failedLoaded with status := .enum .pending, errors := [] })
          ∈ resetPhase stResume.brands) :=
  ⟨⟨by decide, Or.inl rfl⟩,
   ⟨(c4_resume_reset exAlwaysOk "t" stResume).1,
    (c4_resume_reset exAlwaysOk "t" stResume).2 "F" failedLoaded (by decide) (Or.inl rfl)⟩⟩

/-! ### C6: phase short-circuit -/

theorem retryPhase_skip (ex : Executors) (now : String) (w : Nat) (f : Bool)
    (st : SessionSt) (h : incompleteBrands st.brands = []) :
    retryPhase ex now w f st = (st, []) := by
  simp [retryPhase, h]

/-- C6 (amended).  The retry phases are skipped exactly under the
code's own incomplete test: if after the initial pipeline no item's
status is the enum `PENDING`, `COLLECTING`, `ANALYZING`, `COLLECTED` or
`FAILED` (a plain-string status never matches), then none of the four
retry phases executes — no sleep occurs and no further executor is
invoked, the state passing through unchanged.  (Unlike the claim's
outstanding set, this set contains `failed` and does not contain
`analyzed`, `downloading`, `downloaded` or `summarizing`.) -/
theorem c6_phase_short_circuit (ex : Executors) (now : String) (st : SessionSt)
    (h : incompleteBrands st.brands = []) :
    retryPhases ex now st = (st, []) := by
  have hp : ∀ w f, retryPhase ex now w f st = (st, []) :=
    fun w f => retryPhase_skip ex now w f st h
  simp [retryPhases, phaseSpecs, hp]

/-- A session whose single item is `SUMMARIZED`. -/
def stDone : SessionSt :=
  { brands := [("A", { newBrand "A" with status := .enum .summarized })]
    completed_brands := 1
    failed_brands := 0
    started_at := none
    completed_at := none }

/-- Witness for `c6_phase_short_circuit` at an all-summarized session. -/
theorem c6_phase_short_circuit_witness :
    incompleteBrands stDone.brands = []
    ∧ retryPhases exAlwaysOk "t" stDone = (stDone, []) :=
  ⟨by decide, c6_phase_short_circuit exAlwaysOk "t" stDone (by decide)⟩

/-- Modelled from the claim's words, for comparison with the code's
test: the outstanding set — items whose status tag is neither
`summarized` nor terminal (`summarized`, `failed`, `no_brand_found`). -/
def claimOutstanding (brands : List (String × BrandState)) : List (String × BrandState) :=
  brands.filter (fun p =>
    decide (statusValue p.2.status ∉ ["summarized", "failed", "no_brand_found"]))

/-- Executors whose collect step always raises. -/
def exBoom : Executors :=
  { collect := fun _ => .error "boom"
    download := fun _ => .ok none
    summarize := fun _ => .ok none }

/-- A fresh session with the single pending brand `"A"`. -/
def stOnePending : SessionSt :=
  { brands := [("A", newBrand "A")]
    completed_brands := 0
    failed_brands := 0
    started_at := none
    completed_at := none }

set_option maxHeartbeats 1600000 in
/-- C6 counterexample.  With one brand whose collect step raises, the
initial pipeline leaves the item `FAILED`, so the claim's outstanding
set (neither `summarized` nor terminal) is empty — yet the run does not
short-circuit: the code's incomplete test also matches `FAILED`, so the
first retry phase executes and its 300-second inter-phase sleep
occurs (and so do the later ones). -/
theorem c6_counterexample :
    claimOutstanding ((initialPipeline exBoom "t" stOnePending).1).brands = []
    ∧ Event.sleep 300 ∈ (retryPhases exBoom "t" (initialPipeline exBoom "t" stOnePending).1).2
    ∧ Event.sleep 300 ∈ (run_session exBoom "t" stOnePending).2 := by
  exact ⟨by decide, by decide, by decide⟩

end SmartScout
